import Mathlib

/-!
Verification development for the SQL migration file parser of `ts-goose`
(`src/sql-parser.ts`).  The parser is embedded shallowly over `List Char`
(the JS string of the source), with JS regular expressions translated to
the equivalent deterministic character scans.  All definitions follow the
source line by line; source line numbers are cited in the doc comments.
-/

set_option linter.unusedVariables false

/-- JS whitespace class `\s`, restricted to the characters that can occur in
the parser's inputs (space, tab, newline, carriage return). -/
def isWsChar (c : Char) : Bool :=
  c == ' ' || c == '\t' || c == '\n' || c == '\r'

/-- The character `{` (written via its code point to keep it out of string
literals). -/
def lbraceCh : Char := Char.ofNat 123

/-- The character `}`. -/
def rbraceCh : Char := Char.ofNat 125

/-- The single-quote character. -/
def sqCh : Char := Char.ofNat 39

/-- The double-quote character. -/
def dqCh : Char := Char.ofNat 34

/-- `String.prototype.trim`: drop whitespace from both ends (trailing first,
then leading; the order is immaterial). -/
def trimStr (s : List Char) : List Char :=
  ((s.reverse.dropWhile isWsChar).reverse).dropWhile isWsChar

/-- Exact (case-sensitive) prefix test on character lists. -/
def hasPrefixChars : List Char → List Char → Bool
  | [], _ => true
  | _ :: _, [] => false
  | p :: ps, c :: cs => p == c && hasPrefixChars ps cs

/-- ASCII upper-casing of one character (`String.prototype.toUpperCase` on the
inputs that occur here). -/
def toUpperCh (c : Char) : Char :=
  if 'a' ≤ c && c ≤ 'z' then Char.ofNat (c.toNat - 32) else c

/-- ASCII upper-casing of a character list. -/
def toUpperStr (s : List Char) : List Char := s.map toUpperCh

/-- Case-insensitive prefix test (JS regex `i` flag on ASCII literals). -/
def hasPrefixCI : List Char → List Char → Bool
  | [], _ => true
  | _ :: _, [] => false
  | p :: ps, c :: cs => toUpperCh p == toUpperCh c && hasPrefixCI ps cs

/-- Helper for `splitLines` (accumulator holds the current line reversed). -/
def splitLinesAux (acc : List Char) : List Char → List (List Char)
  | [] => [acc.reverse]
  | c :: cs =>
    if c == '\n' then acc.reverse :: splitLinesAux [] cs
    else splitLinesAux (c :: acc) cs

/-- `s.split("\n")` of JS: always returns at least one (possibly empty) line. -/
def splitLines (s : List Char) : List (List Char) := splitLinesAux [] s

/-- `lines.join("\n")` of JS. -/
def joinLines : List (List Char) → List Char
  | [] => []
  | [l] => l
  | l :: ls => l ++ '\n' :: joinLines ls

/-- The recognized goose directives (`Ann` in the source, src/sql-parser.ts
lines 30–37). -/
inductive Ann
  | UP
  | DOWN
  | STATEMENTBEGIN
  | STATEMENTEND
  | NOTRANSACTION
  | ENVSUBON
  | ENVSUBOFF
deriving DecidableEq

/-- The suffix of a line after the prefix matched by `^--\s*\+goose`
(case-insensitive), when that prefix matches; shared by `parseAnn` and
`isGooseAnn`. -/
def gooseCmdRest (t : List Char) : Option (List Char) :=
  if hasPrefixChars ("--".data) t then
    let r := (t.drop 2).dropWhile isWsChar
    if hasPrefixCI ("+goose".data) r then some (r.drop 6) else none
  else none

/-- `parseAnnotation` of the source (src/sql-parser.ts lines 39–55): match the
trimmed line against `^--\s*\+goose\s+(.+?)\s*$` (case-insensitive), trim and
upper-case the captured command and classify it.  The capture is the text
after the first whitespace run following `+goose`, trailing whitespace
stripped; an empty command falls through the `switch` to `null`. -/
def parseAnn (line : List Char) : Option Ann :=
  match gooseCmdRest line with
  | none => none
  | some rest =>
    match rest with
    | [] => none
    | c :: _ =>
      if isWsChar c then
        let cmd := toUpperStr (trimStr rest)
        if cmd == ("UP".data) then some Ann.UP
        else if cmd == ("DOWN".data) then some Ann.DOWN
        else if cmd == ("STATEMENTBEGIN".data) then some Ann.STATEMENTBEGIN
        else if cmd == ("STATEMENTEND".data) then some Ann.STATEMENTEND
        else if cmd == ("NO TRANSACTION".data) then some Ann.NOTRANSACTION
        else if cmd == ("ENVSUB ON".data) then some Ann.ENVSUBON
        else if cmd == ("ENVSUB OFF".data) then some Ann.ENVSUBOFF
        else none
      else none

/-- `isGooseAnn` of the source (lines 57–64): the trimmed line matches
`^--\s*\+goose\s+<ann>$` case-insensitively (the source's second regex
`^--\+goose\s+<ann>$` is subsumed by the first, whose `\s*` may be empty).
The `ann` argument is one of the upper-case directive strings; unlike
`parseAnn`, the match must end exactly at `ann`. -/
def isGooseAnn (line : List Char) (ann : List Char) : Bool :=
  match gooseCmdRest (trimStr line) with
  | none => false
  | some rest =>
    match rest with
    | [] => false
    | c :: _ => isWsChar c && toUpperStr (rest.dropWhile isWsChar) == ann

/-- src/sql-parser.ts line 15. -/
def UP_COMMENT : List Char := "-- +goose Up".data

/-- src/sql-parser.ts line 16. -/
def DOWN_COMMENT : List Char := "-- +goose Down".data

/-- src/sql-parser.ts line 17. -/
def NO_TRANSACTION_COMMENT : List Char := "-- +goose NO TRANSACTION".data

/-- `startsWithNoTxDirective` (lines 66–75): the first non-empty trimmed line
equals one of the two accepted spellings.  The source compares with `===`,
i.e. exactly and case-sensitively. -/
def startsWithNoTxDirective (s : List Char) : Bool :=
  match ((splitLines s).map trimStr).find? (fun l => !l.isEmpty) with
  | some l => l == NO_TRANSACTION_COMMENT || l == ("--+goose NO TRANSACTION".data)
  | none => false

/-- Does the list end with a semicolon (`t.endsWith(";")`)? -/
def endsWithSemi (s : List Char) : Bool :=
  match s.getLast? with
  | some c => c == ';'
  | none => false

/-- `ensureTrailingSemicolon` (lines 77–80). -/
def ensureTrailingSemicolon (statement : List Char) : List Char :=
  let t := trimStr statement
  if endsWithSemi t then t else t ++ [';']

/-- Drop characters through the first `*/`, returning the suffix after it
(the non-greedy `[\s\S]*?\*\/` part of the block-comment regex). -/
def dropBlockClose : List Char → Option (List Char)
  | [] => none
  | c :: r =>
    if c == '*' && r.head? == some '/' then some r.tail
    else dropBlockClose r

/-- `statement.replace(/\/\*[\s\S]*?\*\//g, "")` (line 86), with structural
fuel (one unit per character consumed; the wrapper passes the input length,
which always suffices): remove each non-nested block comment; a `/*` with no
later `*/` is left untouched (the regex does not match there, and then
matches nowhere later either). -/
def stripBlockCommentsF : Nat → List Char → List Char
  | 0, l => l
  | _, [] => []
  | fuel + 1, c :: r =>
    if c == '/' && r.head? == some '*' then
      match dropBlockClose r.tail with
      | some r2 => stripBlockCommentsF fuel r2
      | none => c :: r
    else c :: stripBlockCommentsF fuel r

def stripBlockComments (l : List Char) : List Char := stripBlockCommentsF l.length l

/-- `isCommentOnly` (lines 82–92): strip block comments, split into lines,
trim, drop empties and `--` lines; comment-only iff nothing remains. -/
def isCommentOnly (statement : List Char) : Bool :=
  ((((splitLines (stripBlockComments statement)).map trimStr).filter
      (fun l => !l.isEmpty)).filter
      (fun l => !(hasPrefixChars ("--".data) l))).isEmpty

/-- First character of an environment variable name: `[A-Za-z_]`. -/
def isVarStartCh (c : Char) : Bool := c.isAlpha || c == '_'

/-- Later characters of a variable name / dollar-quote tag: `[A-Za-z0-9_]`. -/
def isVarCh (c : Char) : Bool := c.isAlpha || c.isDigit || c == '_'

/-- Read `[A-Za-z0-9_]*` up to a terminator character `stop`; returns the run
and the remainder after the terminator.  (Backtracking cannot produce any
other split, since the run characters and the terminator are disjoint.) -/
def readTagUntil (stop : Char) : List Char → Option (List Char × List Char)
  | [] => none
  | c :: rest =>
    if c == stop then some ([], rest)
    else if isVarCh c then
      match readTagUntil stop rest with
      | some (tn, rem) => some (c :: tn, rem)
      | none => none
    else none

/-- After `${`, parse `([A-Za-z_][A-Za-z0-9_]*)\}`; returns the variable name
and the remainder after the closing brace. -/
def parseVarName (cs : List Char) : Option (List Char × List Char) :=
  match cs with
  | [] => none
  | c :: rest =>
    if isVarStartCh c then
      match readTagUntil rbraceCh rest with
      | some (tn, rem) => some (c :: tn, rem)
      | none => none
    else none

/-- The `${VAR}` expander of `interpolateEnv` (line 97):
`line.replace(/\$\{([A-Za-z_][A-Za-z0-9_]*)\}/g, (_, k) => process.env[k] ?? "")`.
The process environment is the read-only lookup `env`.  Note the pattern has
no escape handling: it matches at every `${name}`, regardless of what
precedes it. -/
def interpolateCharsF (env : List Char → Option (List Char)) :
    Nat → List Char → List Char
  | 0, l => l
  | _, [] => []
  | fuel + 1, c :: rest =>
    if c == '$' then
      match rest with
      | d :: rest2 =>
        if d == lbraceCh then
          match parseVarName rest2 with
          | some (name, after) => ((env name).getD []) ++ interpolateCharsF env fuel after
          | none => c :: interpolateCharsF env fuel rest
        else c :: interpolateCharsF env fuel rest
      | [] => [c]
    else c :: interpolateCharsF env fuel rest

def interpolateChars (env : List Char → Option (List Char)) (l : List Char) : List Char :=
  interpolateCharsF env l.length l

/-- `interpolateEnv` (lines 94–101): identity when `envOn` is false. -/
def interpolateEnv (env : List Char → Option (List Char)) (line : List Char)
    (envOn : Bool) : List Char :=
  if !envOn then line else interpolateChars env line

/-- The two-valued `ParserState` enum (lines 19–22). -/
inductive ParserState
  | NORMAL
  | IN_BLOCK
deriving DecidableEq

/-- The mutable locals of `parseSqlStatements` that the line scanner reads and
writes (lines 235–255): parser state, ENVSUB flag, statement buffer, emitted
statements (in order), `haveBegunStatement`, and the tokenizer flags
`inSQ`/`inDQ`/`inLine`/`inBlock`/`dollarTag`. -/
structure ScanSt where
  state : ParserState
  envOn : Bool
  buf : List Char
  statements : List (List Char)
  haveBegun : Bool
  inSQ : Bool
  inDQ : Bool
  inLine : Bool
  inBlock : Bool
  dollarTag : Option (List Char)
deriving DecidableEq

/-- The initial state at the top of `parseSqlStatements`. -/
def initScanSt : ScanSt :=
  ⟨ParserState.NORMAL, false, [], [], false, false, false, false, false, none⟩

/-- `maybeEndStatementOnSemicolon` (lines 261–267): a semicolon terminates the
statement iff no quoting/comment context is active and the parser state is
`NORMAL`. -/
def maybeEndStatementOnSemicolon (st : ScanSt) (ch : Char) : Bool :=
  ch == ';' && !st.inSQ && !st.inDQ && !st.inLine && !st.inBlock &&
    st.dollarTag == none && st.state == ParserState.NORMAL

/-- `flushIfNonEmpty` with `forceSemi = true` (lines 241–248), the only way it
is invoked. -/
def flushIfNonEmpty (st : ScanSt) : ScanSt :=
  let stmt := trimStr st.buf
  { st with
    buf := [],
    haveBegun := false,
    statements :=
      if !stmt.isEmpty && !isCommentOnly stmt then
        st.statements ++ [ensureTrailingSemicolon stmt]
      else st.statements }

/-- Steps 4–7 of the character loop in `scanLine` (lines 422–466): the
double-quote and single-quote toggles with `""`/`''` escapes, the safe
semicolon split, and the default append.  `st` already carries the
`inLine`/`inBlock` values updated by steps 1–2 of the same iteration; the
guards read `inDQ` after the double-quote step has updated it, exactly as the
mutable code does.  Returns the new state and the characters still to be
scanned (`rest`, or `rest.tail` when an escape pair consumed two). -/
def scanStep (st : ScanSt) (ch : Char) (rest : List Char) : ScanSt × List Char :=
  let g4 := !st.inSQ && !st.inLine && !st.inBlock && st.dollarTag == none
  if g4 && st.inDQ && ch == dqCh && rest.head? == some dqCh then
    ({ st with buf := st.buf ++ [dqCh, dqCh] }, rest.tail)
  else
    let inDQ2 :=
      if g4 && !st.inDQ && ch == dqCh then true
      else if g4 && st.inDQ && ch == dqCh then false
      else st.inDQ
    let st2 := { st with inDQ := inDQ2 }
    let g5 := !st2.inDQ && !st2.inLine && !st2.inBlock && st2.dollarTag == none
    if g5 && st2.inSQ && ch == sqCh && rest.head? == some sqCh then
      ({ st2 with buf := st2.buf ++ [sqCh, sqCh] }, rest.tail)
    else
      let inSQ2 :=
        if g5 && !st2.inSQ && ch == sqCh then true
        else if g5 && st2.inSQ && ch == sqCh then false
        else st2.inSQ
      let st3 := { st2 with inSQ := inSQ2 }
      if maybeEndStatementOnSemicolon st3 ch then
        ({ st3 with
            statements :=
              st3.statements ++ [ensureTrailingSemicolon (trimStr (st3.buf ++ [';']))],
            buf := [],
            haveBegun := false }, rest)
      else
        ({ st3 with buf := st3.buf ++ [ch] }, rest)

/-- The character loop of `scanLine` in `NORMAL` state (lines 365–467).
Steps, in source order: (1) `--` opens a line comment; (2) `/*` opens and
`*/` closes a block comment, the close appending `*/` and consuming two
characters; (3) `$tag$` opens and the identical `$tag$` closes a
dollar-quoted body, each appending the delimiter and consuming it; steps 4–7
are `scanStep`. -/
def scanCharsF : Nat → ScanSt → List Char → ScanSt
  | 0, st, _ => st
  | _, st, [] => st
  | fuel + 1, st, ch :: rest =>
    let st1 := { st with
      inLine := st.inLine ||
        (!st.inSQ && !st.inDQ && !st.inBlock && st.dollarTag == none &&
          ch == '-' && rest.head? == some '-') }
    if st1.inBlock && ch == '*' && rest.head? == some '/' then
      scanCharsF fuel { st1 with inBlock := false, buf := st1.buf ++ ['*', '/'] } rest.tail
    else
      let st2 := { st1 with
        inBlock := st1.inBlock ||
          (!st1.inSQ && !st1.inDQ && !st1.inLine && st1.dollarTag == none &&
            ch == '/' && rest.head? == some '*') }
      if !st2.inSQ && !st2.inDQ && !st2.inLine && !st2.inBlock then
        match st2.dollarTag with
        | none =>
          if ch == '$' then
            match readTagUntil '$' rest with
            | some (tag, rem) =>
              scanCharsF fuel { st2 with dollarTag := some tag, buf := st2.buf ++ ('$' :: (tag ++ ['$'])) } rem
            | none =>
              let p := scanStep st2 ch rest
              scanCharsF fuel p.1 p.2
          else
            let p := scanStep st2 ch rest
            scanCharsF fuel p.1 p.2
        | some tag =>
          if ch == '$' && hasPrefixChars (tag ++ ['$']) rest then
            scanCharsF fuel { st2 with dollarTag := none, buf := st2.buf ++ ('$' :: (tag ++ ['$'])) } (rest.drop (tag.length + 1))
          else
            let p := scanStep st2 ch rest
            scanCharsF fuel p.1 p.2
      else
        let p := scanStep st2 ch rest
        scanCharsF fuel p.1 p.2

/-- The character loop over one line: fuel is the line length, which always
suffices since every iteration consumes at least one character. -/
def scanChars (st : ScanSt) (cs : List Char) : ScanSt := scanCharsF cs.length st cs

/-- Error message at src/sql-parser.ts lines 289/329. -/
def NESTED_MSG : List Char :=
  "Nested StatementBegin found. Blocks cannot be nested.".data

/-- Error message at lines 298/339. -/
def DANGLING_MSG : List Char :=
  "\x27-- +goose StatementEnd\x27 without matching StatementBegin.".data

/-- `scanLine` (lines 269–472).  The first branch handles blank lines and
comments before a statement has begun (annotations act, everything else is
skipped); the second branch handles annotations encountered mid-statement
(acting without buffering) and ordinary lines (env-interpolated, then either
appended verbatim in a block or scanned character-wise in `NORMAL` state,
with the line-comment flag reset and a newline appended at end of line). -/
def scanLine (env : List Char → Option (List Char)) (st : ScanSt) (s : List Char) :
    Except (List Char) ScanSt :=
  let tr := trimStr s
  let ann := parseAnn tr
  if !st.haveBegun && (tr.isEmpty || hasPrefixChars ("--".data) tr) then
    match ann with
    | some Ann.NOTRANSACTION => Except.ok st
    | some Ann.ENVSUBON => Except.ok { st with envOn := true }
    | some Ann.ENVSUBOFF => Except.ok { st with envOn := false }
    | some Ann.STATEMENTBEGIN =>
      if st.state == ParserState.IN_BLOCK then Except.error NESTED_MSG
      else Except.ok { st with state := ParserState.IN_BLOCK }
    | some Ann.STATEMENTEND =>
      if st.state != ParserState.IN_BLOCK then Except.error DANGLING_MSG
      else Except.ok { flushIfNonEmpty st with state := ParserState.NORMAL }
    | some _ => Except.ok st
    | none => Except.ok st
  else
    match ann with
    | some Ann.NOTRANSACTION => Except.ok st
    | some Ann.ENVSUBON => Except.ok { st with envOn := true }
    | some Ann.ENVSUBOFF => Except.ok { st with envOn := false }
    | some Ann.STATEMENTBEGIN =>
      if st.state == ParserState.IN_BLOCK then Except.error NESTED_MSG
      else
        let st2 := if !(trimStr st.buf).isEmpty then flushIfNonEmpty st else st
        Except.ok { st2 with state := ParserState.IN_BLOCK }
    | some Ann.STATEMENTEND =>
      if st.state != ParserState.IN_BLOCK then Except.error DANGLING_MSG
      else Except.ok { flushIfNonEmpty st with state := ParserState.NORMAL }
    | some _ => Except.ok st
    | none =>
      let line := interpolateEnv env s st.envOn
      let stb := { st with haveBegun := true }
      if st.state == ParserState.IN_BLOCK then
        Except.ok { stb with buf := stb.buf ++ line ++ ['\n'] }
      else
        let st2 := scanChars stb line
        Except.ok { st2 with inLine := false, buf := st2.buf ++ ['\n'] }

/-- `for (const line of lines) scanLine(line)` (line 474), propagating thrown
errors. -/
def runLines (env : List Char → Option (List Char)) :
    ScanSt → List (List Char) → Except (List Char) ScanSt
  | st, [] => Except.ok st
  | st, l :: ls =>
    match scanLine env st l with
    | Except.error e => Except.error e
    | Except.ok st2 => runLines env st2 ls

/-- `\s*$` of a multiline regex, tested at a position: whitespace up to a line
boundary (a `\n` reachable through whitespace, or the end of the input). -/
def wsToLineEnd (cs : List Char) : Bool :=
  match cs.dropWhile (fun c => isWsChar c && c != '\n') with
  | [] => true
  | c :: _ => c == '\n'

/-- `^<lit>\s*$` tested at a line start (`lit` is a regex-escaped literal in
the source, hence matched verbatim). -/
def lineMatchesAt (lit : List Char) (ci : Bool) (cs : List Char) : Bool :=
  (if ci then hasPrefixCI lit cs else hasPrefixChars lit cs) &&
    wsToLineEnd (cs.drop lit.length)

/-- The suffixes of the input starting just after each `\n`, paired with their
character index. -/
def lineStartsFrom (n : Nat) : List Char → List (Nat × List Char)
  | [] => []
  | c :: rest =>
    if c == '\n' then (n + 1, rest) :: lineStartsFrom (n + 1) rest
    else lineStartsFrom (n + 1) rest

/-- All positions where a multiline `^` (or `(^|\n)`) can match: position 0
and the position after each newline. -/
def lineStarts (cs : List Char) : List (Nat × List Char) :=
  (0, cs) :: lineStartsFrom 0 cs

/-- `(fileContent.match(new RegExp("^<lit>\\s*$", "gim")) || []).length`: one
match per line start where the case-insensitive literal is followed only by
whitespace up to the end of the line (the greedy `\s*` of one match cannot
swallow a later annotation line, which starts with a non-whitespace `-`). -/
def countAnnMatches (lit : List Char) (cs : List Char) : Nat :=
  ((lineStarts cs).filter (fun p => lineMatchesAt lit true p.2)).length

/-- `content.search(new RegExp("^<lit>\\s*$", flags))`: character index of the
first matching line start, `-1` if none. -/
def searchLine (lit : List Char) (ci : Bool) (cs : List Char) : Int :=
  match (lineStarts cs).find? (fun p => lineMatchesAt lit ci p.2) with
  | some p => Int.ofNat p.1
  | none => -1

/-- `s.slice(start)` of JS for a possibly negative start index. -/
def sliceFrom (s : List Char) (start : Int) : List Char :=
  if start < 0 then s.drop (s.length - min s.length start.natAbs)
  else s.drop start.toNat

/-- The error message built at lines 160–162 / 165–167. -/
def foundMsgExactlyOne (c : List Char) (n : Nat) : List Char :=
  ("Migration file must have exactly one \x27".data) ++ c ++
    ("\x27 annotation. Found ".data) ++ (toString n).data ++ (".".data)

/-- The error message built at lines 172–174. -/
def foundMsgAtMostOne (c : List Char) (n : Nat) : List Char :=
  ("Migration file can have at most one \x27".data) ++ c ++
    ("\x27 annotation. Found ".data) ++ (toString n).data ++ (".".data)

/-- The error message built at lines 185–187. -/
def orderMsg (upC downC : List Char) : List Char :=
  ("\x27".data) ++ upC ++ ("\x27 must come before \x27".data) ++ downC ++
    ("\x27 in migration file.".data)

/-- `validateMigrationFile` (lines 150–190): exactly one Up annotation line,
at most one Down, and if a Down exists it must not precede the Up.  Counting
and the ordering search are case-insensitive (`gim`/`im` flags); the
annotation must start at the line start (no leading whitespace) and be
followed only by whitespace to the end of the line. -/
def validateMigrationFile (fileContent : List Char)
    (upC : List Char := UP_COMMENT) (downC : List Char := DOWN_COMMENT) :
    Except (List Char) Unit :=
  let upCount := countAnnMatches upC fileContent
  if upCount == 0 then Except.error (foundMsgExactlyOne upC 0)
  else if upCount > 1 then Except.error (foundMsgExactlyOne upC upCount)
  else
    let downCount := countAnnMatches downC fileContent
    if downCount > 1 then Except.error (foundMsgAtMostOne downC downCount)
    else if downCount == 1 then
      let upIdx := searchLine upC true fileContent
      let downIdx := searchLine downC true fileContent
      if downIdx < upIdx then Except.error (orderMsg upC downC)
      else Except.ok ()
    else Except.ok ()

/-- `extractUpSection` (lines 107–122).  Mirrors the source exactly: the
`search` calls here carry no `i` flag (case-sensitive), and a failed search
yields `-1`, which then feeds `slice(upIdx + upComment.length)`. -/
def extractUpSection (fileContent : List Char)
    (upC : List Char := UP_COMMENT) (downC : List Char := DOWN_COMMENT) :
    Except (List Char) (List Char) :=
  match validateMigrationFile fileContent upC downC with
  | Except.error e => Except.error e
  | Except.ok _ =>
    let upIdx := searchLine upC false fileContent
    let content := trimStr (sliceFrom fileContent (upIdx + Int.ofNat upC.length))
    let downIdx := searchLine downC false content
    if downIdx == -1 then Except.ok content
    else Except.ok (trimStr (content.take downIdx.toNat))

/-- `extractDownSection` (lines 127–142). -/
def extractDownSection (fileContent : List Char)
    (downC : List Char := DOWN_COMMENT) (upC : List Char := UP_COMMENT) :
    Except (List Char) (List Char) :=
  match validateMigrationFile fileContent upC downC with
  | Except.error e => Except.error e
  | Except.ok _ =>
    let downIdx := searchLine downC false fileContent
    if downIdx == -1 then
      Except.error ("DOWN section not found. Missing \x27-- +goose Down\x27 comment.".data)
    else Except.ok (trimStr (sliceFrom fileContent (downIdx + Int.ofNat downC.length)))

/-- `(^|\n)--\s*\+goose\s+<kw>\s*$` (flags `im`) tested at one line start: the
detector regexes `hasUp`/`hasDown` of lines 223–224.  The inner `\s` classes
may span newlines; each run is forced maximal because the following literal
starts with a non-whitespace character. -/
def markerAt (kw : List Char) (cs : List Char) : Bool :=
  if hasPrefixChars ("--".data) cs then
    let r1 := (cs.drop 2).dropWhile isWsChar
    if hasPrefixCI ("+goose".data) r1 then
      match r1.drop 6 with
      | c :: _ =>
        isWsChar c &&
          (let r3 := (r1.drop 6).dropWhile isWsChar
           hasPrefixCI kw r3 && wsToLineEnd (r3.drop kw.length))
      | [] => false
    else false
  else false

/-- `/(^|\n)--\s*\+goose\s+<kw>\s*$/im.test(content)`. -/
def hasMarker (kw : List Char) (cs : List Char) : Bool :=
  (lineStarts cs).any (fun p => markerAt kw p.2)

/-- `ParseResult` (lines 24–27). -/
structure ParseResult where
  statements : List (List Char)
  transaction : Bool
deriving DecidableEq

/-- The statement list after the end-of-file flush (lines 484–487). -/
def finalFlush (st : ScanSt) : List (List Char) :=
  if !(trimStr st.buf).isEmpty && !isCommentOnly st.buf then
    st.statements ++ [ensureTrailingSemicolon st.buf]
  else st.statements

/-- The per-statement directive filter of the post-processing step
(lines 490–505): drop any line that is a goose directive in either accepted
spelling, re-join and trim. -/
def keepLine (ln : List Char) : Bool :=
  !isGooseAnn ln ("NO TRANSACTION".data) && !isGooseAnn ln ("ENVSUB ON".data) &&
    !isGooseAnn ln ("ENVSUB OFF".data) && !isGooseAnn ln ("STATEMENTBEGIN".data) &&
    !isGooseAnn ln ("STATEMENTEND".data)

/-- One statement through the post-processing map (lines 491–504). -/
def postFilterStmt (s : List Char) : List Char :=
  trimStr (joinLines ((splitLines s).filter keepLine))

/-- Error message at lines 479–481. -/
def UNCLOSED_MSG : List Char :=
  "Unclosed StatementBegin block. Missing -- +goose StatementEnd.".data

/-- Error message at line 232 (template `Invalid direction: ${direction}`). -/
def INVALID_DIR_MSG (direction : List Char) : List Char :=
  "Invalid direction: ".data ++ direction

/-- Section selection of `parseSqlStatements` (lines 223–233): when the
content has an Up or Down marker anywhere, dispatch on the direction
(rejecting anything outside `up`/`down`); otherwise the whole content is the
section and the direction is never inspected. -/
def sectionOf (content : List Char) (direction : List Char) :
    Except (List Char) (List Char) :=
  if hasMarker ("up".data) content || hasMarker ("down".data) content then
    if direction == ("up".data) then extractUpSection content UP_COMMENT DOWN_COMMENT
    else if direction == ("down".data) then extractDownSection content DOWN_COMMENT UP_COMMENT
    else Except.error (INVALID_DIR_MSG direction)
  else Except.ok content

/-- Statement assembly over one section (lines 235–507): scan the lines,
reject an unclosed block at EOF, flush the remaining buffer, and post-filter
the statements. -/
def assembleSection (env : List Char → Option (List Char)) (sec : List Char)
    (transaction : Bool) : Except (List Char) ParseResult :=
  match runLines env initScanSt (splitLines sec) with
  | Except.error e => Except.error e
  | Except.ok st =>
    if st.state == ParserState.IN_BLOCK then Except.error UNCLOSED_MSG
    else
      Except.ok
        ⟨((finalFlush st).map postFilterStmt).filter (fun s => !s.isEmpty), transaction⟩

/-- `parseSqlStatements` (lines 214–508), the parser entry point.  The process
environment is the injected lookup `env`; the direction is the runtime string
value.  The transaction flag is computed from the raw content before section
extraction. -/
def parseSqlStatements (env : List Char → Option (List Char)) (content : List Char)
    (direction : List Char) : Except (List Char) ParseResult :=
  let transaction := !startsWithNoTxDirective content
  match sectionOf content direction with
  | Except.error e => Except.error e
  | Except.ok sec => assembleSection env sec transaction

deriving instance DecidableEq for Except

/-- The empty process environment (no variables set). -/
def env0 : List Char → Option (List Char) := fun _ => none

/-- A process environment binding only `A` to `v`. -/
def envA : List Char → Option (List Char) :=
  fun k => if k = ("A".data) then some ("v".data) else none

/-- Substring test (`String.prototype.includes`). -/
def containsSub (pat : List Char) : List Char → Bool
  | [] => pat.isEmpty
  | c :: rest => hasPrefixChars pat (c :: rest) || containsSub pat rest

/-! ### Helper lemmas about the string primitives -/

theorem dropWhile_head_false {p : Char → Bool} {l : List Char} {c : Char} {cs : List Char}
    (h : l.dropWhile p = c :: cs) : p c = false := by
  induction l with
  | nil => simp [List.dropWhile] at h
  | cons a l ih =>
    rw [List.dropWhile_cons] at h
    split at h
    · exact ih h
    · cases h; rename_i hn; simpa using hn

theorem getLast?_of_suffix {l1 l2 : List Char} (h : l1 <:+ l2) (hne : l1 ≠ []) :
    l1.getLast? = l2.getLast? := by
  obtain ⟨pre, rfl⟩ := h
  exact (List.getLast?_append_of_ne_nil pre hne).symm

theorem endsWithSemi_iff {s : List Char} :
    endsWithSemi s = true ↔ s.getLast? = some ';' := by
  unfold endsWithSemi
  cases hl : s.getLast? with
  | none => simp
  | some c => simp [beq_iff_eq]

theorem endsWithSemi_ne_nil {s : List Char} (h : endsWithSemi s = true) : s ≠ [] := by
  intro he
  subst he
  simp [endsWithSemi] at h

/-- If the last element of `l` does not satisfy `p`, then `dropWhile p` does
nothing on `l.reverse`. -/
theorem revDropWhile_eq_self {p : Char → Bool} {l : List Char} {c : Char}
    (h : l.getLast? = some c) (hc : p c = false) :
    l.reverse.dropWhile p = l.reverse := by
  cases hr : l.reverse with
  | nil => rfl
  | cons d ds =>
    have hd : d = c := by
      have h2 := List.head?_reverse l
      rw [hr, h] at h2
      simpa using h2
    subst hd
    rw [List.dropWhile_cons, hc]
    simp

/-- A string ending in `;` is untouched by right-trimming, so `trim` only
strips its leading whitespace. -/
theorem trimStr_of_endsWithSemi {s : List Char} (h : endsWithSemi s = true) :
    trimStr s = s.dropWhile isWsChar := by
  rw [endsWithSemi_iff] at h
  have h1 : trimStr s = List.dropWhile isWsChar ((s.reverse.dropWhile isWsChar).reverse) := rfl
  rw [h1, revDropWhile_eq_self h (by decide), List.reverse_reverse]

theorem endsWithSemi_dropWhile {s : List Char} (h : endsWithSemi s = true) :
    endsWithSemi (s.dropWhile isWsChar) = true := by
  rw [endsWithSemi_iff] at h ⊢
  have hsuf : s.dropWhile isWsChar <:+ s := List.dropWhile_suffix isWsChar
  have hne : s.dropWhile isWsChar ≠ [] := by
    rw [Ne, List.dropWhile_eq_nil_iff]
    intro hall
    have hmem : ';' ∈ s := by
      rw [List.getLast?_eq_some_iff] at h
      obtain ⟨ys, rfl⟩ := h
      simp
    have := hall _ hmem
    simp [isWsChar] at this
  rw [getLast?_of_suffix hsuf hne]
  exact h

theorem endsWithSemi_trimStr {s : List Char} (h : endsWithSemi s = true) :
    endsWithSemi (trimStr s) = true := by
  rw [trimStr_of_endsWithSemi h]
  exact endsWithSemi_dropWhile h

theorem trimStr_idem (s : List Char) : trimStr (trimStr s) = trimStr s := by
  have hdef : ∀ x : List Char,
      trimStr x = List.dropWhile isWsChar ((x.reverse.dropWhile isWsChar).reverse) :=
    fun x => rfl
  cases hX : s.reverse.dropWhile isWsChar with
  | nil =>
    have h1 : trimStr s = [] := by rw [hdef s, hX]; rfl
    rw [h1]; rfl
  | cons c xs =>
    have hc : isWsChar c = false := dropWhile_head_false hX
    have h1 : trimStr s = List.dropWhile isWsChar ((c :: xs).reverse) := by
      rw [hdef s, hX]
    by_cases hT : trimStr s = []
    · rw [hT]; rfl
    · have hsuf : trimStr s <:+ (c :: xs).reverse := by
        rw [h1]; exact List.dropWhile_suffix _
      have hlast2 : (trimStr s).getLast? = some c := by
        rw [getLast?_of_suffix hsuf hT, List.getLast?_reverse]
        rfl
      rw [hdef (trimStr s), revDropWhile_eq_self hlast2 hc, List.reverse_reverse, h1,
        List.dropWhile_idempotent]

theorem endsWithSemi_ensure (t : List Char) :
    endsWithSemi (ensureTrailingSemicolon t) = true := by
  unfold ensureTrailingSemicolon
  dsimp only
  split
  · assumption
  · rw [endsWithSemi_iff]
    exact List.getLast?_concat _

theorem getLast?_cons_of_ne_nil {α : Type} {a : α} {l : List α} (h : l ≠ []) :
    (a :: l).getLast? = l.getLast? := by
  have h2 : ([a] ++ l).getLast? = l.getLast? := List.getLast?_append_of_ne_nil [a] h
  simpa using h2

theorem splitLinesAux_ne_nil (acc l : List Char) : splitLinesAux acc l ≠ [] := by
  induction l generalizing acc with
  | nil => simp [splitLinesAux]
  | cons c cs ih =>
    rw [splitLinesAux]
    split
    · simp
    · exact ih (c :: acc)

/-- If a string ends with `;`, the last line of its `split("\n")` also ends
with `;` (a `;` is not a line separator). -/
theorem splitLinesAux_last_semi (l : List Char) :
    ∀ acc, endsWithSemi l = true →
      ∃ ll, (splitLinesAux acc l).getLast? = some ll ∧ endsWithSemi ll = true := by
  induction l with
  | nil => intro acc h; simp [endsWithSemi] at h
  | cons c cs ih =>
    intro acc h
    cases hcs : cs with
    | nil =>
      subst hcs
      have hc : c = ';' := by
        rw [endsWithSemi_iff] at h
        simpa using h
      subst hc
      refine ⟨acc.reverse ++ [';'], ?_, ?_⟩
      · simp [splitLinesAux]
      · rw [endsWithSemi_iff]; exact List.getLast?_concat _
    | cons d ds =>
      subst hcs
      have hcs2 : endsWithSemi (d :: ds) = true := by
        rw [endsWithSemi_iff] at h ⊢
        rw [← h, List.getLast?_cons_cons]
      rw [splitLinesAux]
      split
      · obtain ⟨ll, h1, h2⟩ := ih [] hcs2
        refine ⟨ll, ?_, h2⟩
        rw [getLast?_cons_of_ne_nil (splitLinesAux_ne_nil _ _)]
        exact h1
      · exact ih (c :: acc) hcs2

theorem splitLines_last_semi {l : List Char} (h : endsWithSemi l = true) :
    ∃ ll, (splitLines l).getLast? = some ll ∧ endsWithSemi ll = true :=
  splitLinesAux_last_semi l [] h

/-- Filtering keeps the last element when the predicate holds on it. -/
theorem filter_getLast?_of_pos {α : Type} {q : α → Bool} {ls : List α} {ll : α}
    (h : ls.getLast? = some ll) (hq : q ll = true) :
    (ls.filter q).getLast? = some ll := by
  induction ls with
  | nil => simp at h
  | cons x xs ih =>
    cases hxs : xs with
    | nil =>
      subst hxs
      simp at h
      subst h
      simp [List.filter_cons, hq]
    | cons y ys =>
      subst hxs
      have h2 : (y :: ys).getLast? = some ll := by
        rw [← h, List.getLast?_cons_cons]
      have ih2 := ih h2
      have hne : (List.filter q (y :: ys)) ≠ [] := by
        intro hn
        rw [hn] at ih2
        simp at ih2
      rw [List.filter_cons]
      split
      · rw [getLast?_cons_of_ne_nil hne]
        exact ih2
      · exact ih2

/-- `join("\n")` preserves a final `;` from the last line. -/
theorem joinLines_endsWithSemi {ls : List (List Char)} {ll : List Char}
    (h : ls.getLast? = some ll) (h2 : endsWithSemi ll = true) :
    endsWithSemi (joinLines ls) = true := by
  induction ls with
  | nil => simp at h
  | cons x xs ih =>
    cases hxs : xs with
    | nil =>
      subst hxs
      simp at h
      subst h
      simpa [joinLines] using h2
    | cons y ys =>
      subst hxs
      have hlast : (y :: ys).getLast? = some ll := by
        rw [← h, List.getLast?_cons_cons]
      have ihx := ih hlast
      have hne : joinLines (y :: ys) ≠ [] := endsWithSemi_ne_nil ihx
      rw [endsWithSemi_iff] at ihx ⊢
      have hjoin : joinLines (x :: y :: ys) = x ++ '\n' :: joinLines (y :: ys) := rfl
      rw [hjoin, List.getLast?_append_of_ne_nil _ (by simp)]
      rw [getLast?_cons_of_ne_nil hne]
      exact ihx

/-- On success, the suffix returned by `gooseCmdRest` is a suffix of the
input line. -/
theorem gooseCmdRest_suffix {t rest : List Char} (h : gooseCmdRest t = some rest) :
    rest <:+ t := by
  unfold gooseCmdRest at h
  split at h
  · dsimp only at h
    split at h
    · simp only [Option.some.injEq] at h
      subst h
      have h1 : ((t.drop 2).dropWhile isWsChar).drop 6 <:+ (t.drop 2).dropWhile isWsChar :=
        List.drop_suffix _ _
      have h2 : (t.drop 2).dropWhile isWsChar <:+ t.drop 2 := List.dropWhile_suffix _
      have h3 : t.drop 2 <:+ t := List.drop_suffix _ _
      exact h1.trans (h2.trans h3)
    · exact absurd h (by simp)
  · exact absurd h (by simp)

/-- A line ending in `;` can never equal a goose directive line: the keyword
comparison in `isGooseAnn` fails for every keyword not ending in `;`. -/
theorem isGooseAnn_false_of_endsWithSemi {ln ann : List Char}
    (h : endsWithSemi ln = true) (hne : ann ≠ [])
    (hlast : ann.getLast? ≠ some ';') : isGooseAnn ln ann = false := by
  unfold isGooseAnn
  cases hg : gooseCmdRest (trimStr ln) with
  | none => rfl
  | some rest =>
    dsimp only
    cases rest with
    | nil => rfl
    | cons c cr =>
      dsimp only
      cases hbeq : (toUpperStr ((c :: cr).dropWhile isWsChar) == ann) with
      | false => simp
      | true =>
        exfalso
        have heq : toUpperStr ((c :: cr).dropWhile isWsChar) = ann := by
          rwa [beq_iff_eq] at hbeq
        have htrim : endsWithSemi (trimStr ln) = true := endsWithSemi_trimStr h
        rw [endsWithSemi_iff] at htrim
        cases hW : (c :: cr).dropWhile isWsChar with
        | nil =>
          rw [hW] at heq
          exact hne heq.symm
        | cons w wr =>
          have hWne : (c :: cr).dropWhile isWsChar ≠ [] := by rw [hW]; simp
          have hsuf1 : (c :: cr).dropWhile isWsChar <:+ (c :: cr) :=
            List.dropWhile_suffix _
          have hsuf2 : (c :: cr) <:+ trimStr ln := gooseCmdRest_suffix hg
          have hWlast : ((c :: cr).dropWhile isWsChar).getLast? = some ';' := by
            rw [getLast?_of_suffix hsuf1 hWne]
            rw [getLast?_of_suffix hsuf2 (by simp)]
            exact htrim
          have hUlast : (toUpperStr ((c :: cr).dropWhile isWsChar)).getLast? = some ';' := by
            unfold toUpperStr
            rw [List.getLast?_map, hWlast]
            rfl
          rw [heq] at hUlast
          exact hlast hUlast

/-- A line ending in `;` survives the directive post-filter. -/
theorem keepLine_of_endsWithSemi {ln : List Char} (h : endsWithSemi ln = true) :
    keepLine ln = true := by
  unfold keepLine
  rw [isGooseAnn_false_of_endsWithSemi h (by decide) (by decide),
    isGooseAnn_false_of_endsWithSemi h (by decide) (by decide),
    isGooseAnn_false_of_endsWithSemi h (by decide) (by decide),
    isGooseAnn_false_of_endsWithSemi h (by decide) (by decide),
    isGooseAnn_false_of_endsWithSemi h (by decide) (by decide)]
  rfl

/-- The post-filter of the parser preserves "ends with a semicolon" and
returns a trimmed string. -/
theorem postFilterStmt_props {p : List Char} (h : endsWithSemi p = true) :
    endsWithSemi (postFilterStmt p) = true ∧ trimStr (postFilterStmt p) = postFilterStmt p := by
  obtain ⟨ll, h1, h2⟩ := splitLines_last_semi h
  have h3 : ((splitLines p).filter keepLine).getLast? = some ll :=
    filter_getLast?_of_pos h1 (keepLine_of_endsWithSemi h2)
  have h4 : endsWithSemi (joinLines ((splitLines p).filter keepLine)) = true :=
    joinLines_endsWithSemi h3 h2
  constructor
  · unfold postFilterStmt
    exact endsWithSemi_trimStr h4
  · unfold postFilterStmt
    exact trimStr_idem _

/-- Every element of the statement list is the image of
`ensureTrailingSemicolon` — the invariant maintained by all push sites. -/
def ensuredStmts (sts : List (List Char)) : Prop :=
  ∀ p ∈ sts, ∃ t, p = ensureTrailingSemicolon t

theorem ensuredStmts_nil : ensuredStmts [] := by
  intro p hp
  simp at hp

theorem ensuredStmts_push {sts : List (List Char)} {t : List Char}
    (h : ensuredStmts sts) : ensuredStmts (sts ++ [ensureTrailingSemicolon t]) := by
  intro p hp
  rw [List.mem_append] at hp
  cases hp with
  | inl hp => exact h p hp
  | inr hp =>
    simp at hp
    exact ⟨t, hp⟩

theorem ensuredStmts_scanStep {st : ScanSt} {ch : Char} {rest : List Char}
    (h : ensuredStmts st.statements) :
    ensuredStmts (scanStep st ch rest).1.statements := by
  unfold scanStep
  dsimp only
  repeat' split
  all_goals first
    | exact h
    | exact ensuredStmts_push h

theorem ensuredStmts_scanCharsF :
    ∀ (fuel : Nat) (st : ScanSt) (cs : List Char), ensuredStmts st.statements →
      ensuredStmts (scanCharsF fuel st cs).statements := by
  intro fuel
  induction fuel with
  | zero => intro st cs h; cases cs <;> exact h
  | succ n ih =>
    intro st cs h
    cases cs with
    | nil => exact h
    | cons ch rest =>
      rw [scanCharsF]
      dsimp only
      repeat' split
      all_goals first
        | exact ih _ _ h
        | exact ih _ _ (ensuredStmts_scanStep h)

theorem ensuredStmts_flush {st : ScanSt} (h : ensuredStmts st.statements) :
    ensuredStmts (flushIfNonEmpty st).statements := by
  unfold flushIfNonEmpty
  dsimp only
  split
  · exact ensuredStmts_push h
  · exact h

theorem ensuredStmts_scanLine {env : List Char → Option (List Char)} {st : ScanSt}
    {s : List Char} {st2 : ScanSt} (hok : scanLine env st s = Except.ok st2)
    (h : ensuredStmts st.statements) : ensuredStmts st2.statements := by
  unfold scanLine at hok
  dsimp only at hok
  split at hok
  · split at hok
    all_goals try (simp only [Except.ok.injEq] at hok; subst hok; exact h)
    · split at hok
      · exact absurd hok (by simp)
      · simp only [Except.ok.injEq] at hok; subst hok; exact h
    · split at hok
      · exact absurd hok (by simp)
      · simp only [Except.ok.injEq] at hok; subst hok
        exact ensuredStmts_flush h
  · split at hok
    all_goals try (simp only [Except.ok.injEq] at hok; subst hok; exact h)
    · split at hok
      · exact absurd hok (by simp)
      · simp only [Except.ok.injEq] at hok; subst hok
        split
        · exact ensuredStmts_flush h
        · exact h
    · split at hok
      · exact absurd hok (by simp)
      · simp only [Except.ok.injEq] at hok; subst hok
        exact ensuredStmts_flush h
    · split at hok
      · simp only [Except.ok.injEq] at hok; subst hok; exact h
      · simp only [Except.ok.injEq] at hok; subst hok
        exact ensuredStmts_scanCharsF _ _ _ h

theorem ensuredStmts_runLines {env : List Char → Option (List Char)} :
    ∀ (ls : List (List Char)) (st st2 : ScanSt),
      runLines env st ls = Except.ok st2 → ensuredStmts st.statements →
        ensuredStmts st2.statements := by
  intro ls
  induction ls with
  | nil =>
    intro st st2 h hh
    rw [runLines] at h
    simp only [Except.ok.injEq] at h
    subst h
    exact hh
  | cons l ls ih =>
    intro st st2 h hh
    rw [runLines] at h
    cases hsc : scanLine env st l with
    | error e => rw [hsc] at h; exact absurd h (by simp)
    | ok stm =>
      rw [hsc] at h
      exact ih _ _ h (ensuredStmts_scanLine hsc hh)

theorem ensuredStmts_finalFlush {st : ScanSt} (h : ensuredStmts st.statements) :
    ensuredStmts (finalFlush st) := by
  unfold finalFlush
  split
  · exact ensuredStmts_push h
  · exact h

/-- Shape of every statement returned by a successful parse: the post-filter
applied to an `ensureTrailingSemicolon` image. -/
theorem parse_ok_shape {env : List Char → Option (List Char)}
    {content direction : List Char} {r : ParseResult}
    (h : parseSqlStatements env content direction = Except.ok r) :
    ∀ s ∈ r.statements, ∃ p, (∃ t, p = ensureTrailingSemicolon t) ∧ s = postFilterStmt p := by
  unfold parseSqlStatements at h
  dsimp only at h
  cases hsec : sectionOf content direction with
  | error e => rw [hsec] at h; exact absurd h (by simp)
  | ok sec =>
    rw [hsec] at h
    dsimp only at h
    unfold assembleSection at h
    cases hrl : runLines env initScanSt (splitLines sec) with
    | error e => rw [hrl] at h; dsimp only at h; exact absurd h (by simp)
    | ok st =>
      rw [hrl] at h
      dsimp only at h
      split at h
      · exact absurd h (by simp)
      · simp only [Except.ok.injEq] at h
        subst h
        intro s hs
        simp only [List.mem_filter, List.mem_map] at hs
        obtain ⟨⟨p, hp1, hp2⟩, -⟩ := hs
        have hens : ensuredStmts (finalFlush st) :=
          ensuredStmts_finalFlush
            (ensuredStmts_runLines _ _ _ hrl ensuredStmts_nil)
        exact ⟨p, hens p hp1, hp2.symm⟩

/-- Every successful parse result carries the transaction flag computed from
the raw content, whatever the section extraction did. -/
theorem parse_ok_transaction {env : List Char → Option (List Char)}
    {content direction : List Char} {r : ParseResult}
    (h : parseSqlStatements env content direction = Except.ok r) :
    r.transaction = !startsWithNoTxDirective content := by
  unfold parseSqlStatements at h
  dsimp only at h
  cases hsec : sectionOf content direction with
  | error e => rw [hsec] at h; exact absurd h (by simp)
  | ok sec =>
    rw [hsec] at h
    dsimp only at h
    unfold assembleSection at h
    cases hrl : runLines env initScanSt (splitLines sec) with
    | error e => rw [hrl] at h; dsimp only at h; exact absurd h (by simp)
    | ok st =>
      rw [hrl] at h
      dsimp only at h
      split at h
      · exact absurd h (by simp)
      · simp only [Except.ok.injEq] at h
        subst h
        rfl

/-- One scanner step on `;` while inside a single-quoted string: the
semicolon is appended to the buffer and nothing is emitted. -/
theorem scanCharsF_semi_inSQ (n : Nat) (st : ScanSt) (cs : List Char)
    (h : st.inSQ = true) :
    scanCharsF (n + 1) st (';' :: cs) =
      scanCharsF n { st with buf := st.buf ++ [';'] } cs := by
  rw [scanCharsF]
  dsimp only
  simp [scanStep, maybeEndStatementOnSemicolon, h,
    show (';' == '-') = false from rfl, show (';' == '*') = false from rfl,
    show (';' == '/') = false from rfl, show (';' == '$') = false from rfl,
    show (';' == dqCh) = false from rfl, show (';' == sqCh) = false from rfl,
    show (';' == ';') = true from rfl]

/-- One scanner step on `;` while inside a dollar-quoted body: the semicolon
is appended to the buffer and nothing is emitted. -/
theorem scanCharsF_semi_dollarTag (n : Nat) (st : ScanSt) (tag cs : List Char)
    (h : st.dollarTag = some tag) :
    scanCharsF (n + 1) st (';' :: cs) =
      scanCharsF n { st with buf := st.buf ++ [';'] } cs := by
  rw [scanCharsF]
  dsimp only
  simp [scanStep, maybeEndStatementOnSemicolon, h,
    show (';' == '-') = false from rfl, show (';' == '*') = false from rfl,
    show (';' == '/') = false from rfl, show (';' == '$') = false from rfl,
    show (';' == dqCh) = false from rfl, show (';' == sqCh) = false from rfl,
    show (';' == ';') = true from rfl]

/-- C1: a semicolon inside an active quoting context is never a statement
terminator.  With the single-quote flag set, or with a dollar-quote tag
active, scanning `;` appends it to the buffer and emits nothing
(`maybeEndStatementOnSemicolon` is false there); in particular
`SELECT $$ a; b $$;` and `SELECT 'a;b';` each parse to exactly one
statement. -/
theorem claim_C1 :
    (∀ (st : ScanSt) (cs : List Char),
        scanChars { st with inSQ := true } (';' :: cs) =
          scanChars { st with inSQ := true, buf := st.buf ++ [';'] } cs) ∧
    (∀ (st : ScanSt) (tag : List Char) (cs : List Char),
        scanChars { st with dollarTag := some tag } (';' :: cs) =
          scanChars { st with dollarTag := some tag, buf := st.buf ++ [';'] } cs) ∧
    (∀ (st : ScanSt) (ch : Char),
        maybeEndStatementOnSemicolon { st with inSQ := true } ch = false) ∧
    (∀ (st : ScanSt) (ch : Char) (tag : List Char),
        maybeEndStatementOnSemicolon { st with dollarTag := some tag } ch = false) ∧
    parseSqlStatements env0 ("SELECT $$ a; b $$;".data) ("up".data) =
      Except.ok ⟨["SELECT $$ a; b $$;".data], true⟩ ∧
    parseSqlStatements env0 ("SELECT \x27a;b\x27;".data) ("up".data) =
      Except.ok ⟨["SELECT \x27a;b\x27;".data], true⟩ := by
  refine ⟨?_, ?_, ?_, ?_, by decide, by decide⟩
  · intro st cs
    exact scanCharsF_semi_inSQ cs.length _ cs rfl
  · intro st tag cs
    exact scanCharsF_semi_dollarTag cs.length _ tag cs rfl
  · intro st ch
    simp [maybeEndStatementOnSemicolon]
  · intro st ch tag
    simp [maybeEndStatementOnSemicolon]

/-- C3, counterexample to "exactly one trailing semicolon": a
StatementBegin/StatementEnd block whose content ends in `;;` is emitted
verbatim, so the returned statement ends with two semicolons. -/
theorem claim_C3_cex :
    parseSqlStatements env0
        ("-- +goose StatementBegin\nX;;\n-- +goose StatementEnd".data) ("up".data) =
      Except.ok ⟨["X;;".data], true⟩ ∧
    ("X;;".data).getLast? = some ';' ∧
    (("X;;".data).dropLast).getLast? = some ';' := by
  refine ⟨by decide, by decide, by decide⟩

/-- C3 (amended): for every input and direction on which parsing succeeds,
every returned statement ends with a semicolon (at least one — a block
statement may end with several) and has no leading or trailing whitespace. -/
theorem claim_C3 :
    ∀ (env : List Char → Option (List Char)) (content direction : List Char)
      (r : ParseResult), parseSqlStatements env content direction = Except.ok r →
      ∀ s ∈ r.statements, endsWithSemi s = true ∧ trimStr s = s := by
  intro env content direction r h s hs
  obtain ⟨p, ⟨t, hp⟩, hs2⟩ := parse_ok_shape h s hs
  subst hp
  subst hs2
  have he : endsWithSemi (ensureTrailingSemicolon t) = true := endsWithSemi_ensure t
  exact postFilterStmt_props he

/-- C3 witness. -/
theorem claim_C3_witness :
    endsWithSemi ("SELECT 1;".data) = true ∧
      trimStr ("SELECT 1;".data) = "SELECT 1;".data :=
  claim_C3 env0 ("SELECT 1;".data) ("up".data) ⟨["SELECT 1;".data], true⟩
    (by decide) ("SELECT 1;".data) (by simp)

/-- C10: when the content has no line matching the Up or Down annotation
pattern, the direction argument has no influence: any two directions
(including values outside up/down) give identical results and no error. -/
theorem claim_C10 :
    ∀ (env : List Char → Option (List Char)) (content d1 d2 : List Char),
      hasMarker ("up".data) content = false → hasMarker ("down".data) content = false →
      parseSqlStatements env content d1 = parseSqlStatements env content d2 := by
  intro env content d1 d2 h1 h2
  unfold parseSqlStatements sectionOf
  rw [h1, h2]
  simp

/-- C10 witness. -/
theorem claim_C10_witness :
    parseSqlStatements env0 ("SELECT 1;".data) ("sideways".data) =
      parseSqlStatements env0 ("SELECT 1;".data) ("up".data) :=
  claim_C10 env0 ("SELECT 1;".data) ("sideways".data) ("up".data)
    (by decide) (by decide)

/-- C9, counterexample: an out-of-range direction on marker-less content does
NOT raise the unsupported-direction error — the parse succeeds because the
direction is only inspected when an Up/Down marker is present. -/
theorem claim_C9_cex :
    parseSqlStatements env0 ("SELECT 1;".data) ("sideways".data) =
      Except.ok ⟨["SELECT 1;".data], true⟩ ∧
    ("sideways".data ≠ "up".data) ∧ ("sideways".data ≠ "down".data) := by
  refine ⟨by decide, by decide, by decide⟩

/-- C9 (amended): the unsupported-direction error is raised exactly on
content that contains an Up or Down marker line; marker-less content parses
successfully with the direction ignored. -/
theorem claim_C9 :
    (∀ (env : List Char → Option (List Char)) (content direction : List Char),
      (hasMarker ("up".data) content || hasMarker ("down".data) content) = true →
      direction ≠ ("up".data) → direction ≠ ("down".data) →
      parseSqlStatements env content direction =
        Except.error (INVALID_DIR_MSG direction)) ∧
    parseSqlStatements env0 ("-- +goose Up\nSELECT 1;".data) ("sideways".data) =
      Except.error (INVALID_DIR_MSG ("sideways".data)) ∧
    parseSqlStatements env0 ("SELECT 1;".data) ("sideways".data) =
      Except.ok ⟨["SELECT 1;".data], true⟩ := by
  refine ⟨?_, by decide, by decide⟩
  intro env content direction hm hup hdown
  unfold parseSqlStatements sectionOf
  rw [hm]
  rw [beq_eq_false_iff_ne.mpr hup, beq_eq_false_iff_ne.mpr hdown]
  simp

/-- C9 witness. -/
theorem claim_C9_witness :
    parseSqlStatements env0 ("-- +goose Up\nX;".data) ("left".data) =
      Except.error (INVALID_DIR_MSG ("left".data)) :=
  claim_C9.1 env0 ("-- +goose Up\nX;".data) ("left".data)
    (by decide) (by decide) (by decide)

/-- C4, counterexample: the first non-blank line is the NO TRANSACTION
directive up to case (`-- +goose no transaction`), yet the transaction flag
stays `true` — the source compares case-sensitively, not case-insensitively
as claimed. -/
theorem claim_C4_cex :
    toUpperStr (trimStr ("-- +goose no transaction".data)) =
      toUpperStr NO_TRANSACTION_COMMENT ∧
    parseSqlStatements env0 ("-- +goose no transaction\nSELECT 1;".data) ("up".data) =
      Except.ok ⟨["SELECT 1;".data], true⟩ := by
  refine ⟨by decide, by decide⟩

/-- C4 (amended): on every successful parse, the transaction flag is false
exactly when the first non-blank line of the raw input, after trimming, is
**exactly** (case-sensitively) `-- +goose NO TRANSACTION` or
`--+goose NO TRANSACTION`; in particular the directive appearing later in
the file leaves the flag at its default of true. -/
theorem claim_C4 :
    (∀ (env : List Char → Option (List Char)) (content direction : List Char)
      (r : ParseResult), parseSqlStatements env content direction = Except.ok r →
      (r.transaction = false ↔
        (((splitLines content).map trimStr).find? (fun l => !l.isEmpty) =
            some NO_TRANSACTION_COMMENT ∨
         ((splitLines content).map trimStr).find? (fun l => !l.isEmpty) =
            some ("--+goose NO TRANSACTION".data)))) ∧
    parseSqlStatements env0 ("SELECT 1;\n-- +goose NO TRANSACTION".data) ("up".data) =
      Except.ok ⟨["SELECT 1;".data], true⟩ := by
  refine ⟨?_, by decide⟩
  intro env content direction r h
  rw [parse_ok_transaction h]
  unfold startsWithNoTxDirective
  cases hf : ((splitLines content).map trimStr).find? (fun l => !l.isEmpty) with
  | none => simp
  | some l =>
    dsimp only
    simp [beq_iff_eq]
    tauto

/-- C4 witness. -/
theorem claim_C4_witness :
    ((⟨["CREATE INDEX CONCURRENTLY i ON t(c);".data], false⟩ : ParseResult).transaction
        = false ↔
      (((splitLines ("-- +goose NO TRANSACTION\nCREATE INDEX CONCURRENTLY i ON t(c);".data)).map
            trimStr).find? (fun l => !l.isEmpty) = some NO_TRANSACTION_COMMENT ∨
       ((splitLines ("-- +goose NO TRANSACTION\nCREATE INDEX CONCURRENTLY i ON t(c);".data)).map
            trimStr).find? (fun l => !l.isEmpty) = some ("--+goose NO TRANSACTION".data))) :=
  claim_C4.1 env0 ("-- +goose NO TRANSACTION\nCREATE INDEX CONCURRENTLY i ON t(c);".data)
    ("up".data) ⟨["CREATE INDEX CONCURRENTLY i ON t(c);".data], false⟩ (by decide)

/-- C6: structural validation behavior — zero Up annotations fail with
"Found 0.", two with "Found 2.", Down before Up with "must come before", a
file with one Up and at most one Down after it passes, and both section
extractors perform the same validation before any statement assembly. -/
theorem claim_C6 :
    validateMigrationFile ("SELECT 1;".data) UP_COMMENT DOWN_COMMENT =
      Except.error (foundMsgExactlyOne UP_COMMENT 0) ∧
    containsSub ("Found 0.".data) (foundMsgExactlyOne UP_COMMENT 0) = true ∧
    validateMigrationFile ("-- +goose Up\nA;\n-- +goose Up\nB;".data) UP_COMMENT DOWN_COMMENT =
      Except.error (foundMsgExactlyOne UP_COMMENT 2) ∧
    containsSub ("Found 2.".data) (foundMsgExactlyOne UP_COMMENT 2) = true ∧
    validateMigrationFile ("-- +goose Down\nA;\n-- +goose Up\nB;".data) UP_COMMENT DOWN_COMMENT =
      Except.error (orderMsg UP_COMMENT DOWN_COMMENT) ∧
    containsSub ("must come before".data) (orderMsg UP_COMMENT DOWN_COMMENT) = true ∧
    validateMigrationFile ("-- +goose Up\nA;\n-- +goose Down\nB;".data) UP_COMMENT DOWN_COMMENT =
      Except.ok () ∧
    validateMigrationFile ("-- +goose Up\nA;".data) UP_COMMENT DOWN_COMMENT = Except.ok () ∧
    extractUpSection ("SELECT 1;".data) UP_COMMENT DOWN_COMMENT =
      Except.error (foundMsgExactlyOne UP_COMMENT 0) ∧
    extractDownSection ("SELECT 1;".data) DOWN_COMMENT UP_COMMENT =
      Except.error (foundMsgExactlyOne UP_COMMENT 0) := by
  refine ⟨by decide, by decide, by decide, by decide, by decide, by decide, by decide,
    by decide, by decide, by decide⟩

/-- C5: the up-marker detector of the entry point recognizes the
`--+goose Up` spelling (as does the annotation recognizer), but
`validateMigrationFile`/`extractUpSection` match only the literal
`-- +goose Up`, so a file whose single Up marker is written `--+goose Up`
is routed into section extraction and then rejected with "Found 0." instead
of passing structural validation. -/
theorem claim_C5 :
    parseAnn (trimStr ("--+goose Up".data)) = some Ann.UP ∧
    hasMarker ("up".data) ("--+goose Up\nSELECT 1;".data) = true ∧
    parseSqlStatements env0 ("--+goose Up\nSELECT 1;".data) ("up".data) =
      Except.error (foundMsgExactlyOne UP_COMMENT 0) := by
  refine ⟨by decide, by decide, by decide⟩

/-- C8, counterexample: the `${VAR}` pattern preceded by a backslash is NOT
left untouched — the expander regex has no escape handling, so
`SELECT '\$\x7bA\x7d';` becomes `SELECT '\v';` when `A=v`. -/
theorem claim_C8_cex :
    parseSqlStatements envA
        ("-- +goose ENVSUB ON\nSELECT \x27\\$\x7bA\x7d\x27;".data) ("up".data) =
      Except.ok ⟨["SELECT \x27\\v\x27;".data], true⟩ ∧
    ("SELECT \x27\\v\x27;".data) ≠ ("SELECT \x27\\$\x7bA\x7d\x27;".data) := by
  refine ⟨by decide, by decide⟩

/-- C8 (amended): with ENVSUB on, every `${VAR_NAME}` occurrence in a
non-directive line — including occurrences preceded by a backslash, whose
escape is not honored — is replaced with the environment value (empty string
when unset) before the line is buffered; with ENVSUB off lines pass through
unchanged. -/
theorem claim_C8 :
    (∀ (env : List Char → Option (List Char)) (l : List Char),
        interpolateChars env ('\\' :: l) = '\\' :: interpolateChars env l) ∧
    (∀ (env : List Char → Option (List Char)) (l : List Char),
        interpolateEnv env l false = l) ∧
    parseSqlStatements envA
        ("-- +goose ENVSUB ON\nINSERT INTO t VALUES ($\x7bA\x7d);".data) ("up".data) =
      Except.ok ⟨["INSERT INTO t VALUES (v);".data], true⟩ ∧
    parseSqlStatements envA
        ("-- +goose ENVSUB ON\nINSERT INTO t VALUES ($\x7bB\x7d);".data) ("up".data) =
      Except.ok ⟨["INSERT INTO t VALUES ();".data], true⟩ ∧
    parseSqlStatements envA
        ("INSERT INTO t VALUES ($\x7bA\x7d);".data) ("up".data) =
      Except.ok ⟨["INSERT INTO t VALUES ($\x7bA\x7d);".data], true⟩ := by
  refine ⟨?_, ?_, by decide, by decide, by decide⟩
  · intro env l
    rfl
  · intro env l
    rfl

/-- C2, counterexample: the literal text `StatementBegin` inside a quoted
string in a block survives into the returned statement, so "the output never
contains the literal strings" fails as stated (only the directive lines
themselves are stripped). -/
theorem claim_C2_cex :
    parseSqlStatements env0
        ("-- +goose StatementBegin\nSELECT \x27StatementBegin\x27;\n-- +goose StatementEnd".data)
        ("up".data) =
      Except.ok ⟨["SELECT \x27StatementBegin\x27;".data], true⟩ ∧
    containsSub ("StatementBegin".data) ("SELECT \x27StatementBegin\x27;".data) = true := by
  refine ⟨by decide, by decide⟩

/-- C2 (amended): inside a StatementBegin block no line emits statements
(internal semicolons are inert), the StatementEnd directive flushes the
accumulated region as exactly one statement (when non-empty and not
comment-only), and the directive lines never appear in the output — though
the marker text may survive as a substring of ordinary statement content. -/
theorem claim_C2 :
    (∀ (env : List Char → Option (List Char)) (st : ScanSt) (s : List Char),
        st.state = ParserState.IN_BLOCK → parseAnn (trimStr s) = none →
        ∃ st2, scanLine env st s = Except.ok st2 ∧
          st2.statements = st.statements ∧ st2.state = ParserState.IN_BLOCK) ∧
    (∀ (env : List Char → Option (List Char)) (st : ScanSt) (s : List Char),
        st.state = ParserState.IN_BLOCK →
        parseAnn (trimStr s) = some Ann.STATEMENTEND →
        scanLine env st s =
          Except.ok { flushIfNonEmpty st with state := ParserState.NORMAL }) ∧
    parseSqlStatements env0
        ("-- +goose StatementBegin\nBEGIN\nx := 1;\nEND;\n-- +goose StatementEnd\nCREATE TRIGGER t;".data)
        ("up".data) =
      Except.ok ⟨["BEGIN\nx := 1;\nEND;".data, "CREATE TRIGGER t;".data], true⟩ ∧
    containsSub ("StatementBegin".data) ("BEGIN\nx := 1;\nEND;".data) = false ∧
    containsSub ("StatementEnd".data) ("BEGIN\nx := 1;\nEND;".data) = false := by
  refine ⟨?_, ?_, by decide, by decide, by decide⟩
  · intro env st s hstate hann
    unfold scanLine
    dsimp only
    rw [hann]
    dsimp only
    split
    · exact ⟨st, rfl, rfl, hstate⟩
    · rw [hstate]
      exact ⟨_, rfl, rfl, rfl⟩
  · intro env st s hstate hann
    unfold scanLine
    dsimp only
    rw [hann, hstate]
    dsimp only
    split <;> rfl

/-- C2 witness. -/
theorem claim_C2_witness :
    ∃ st2,
      scanLine env0 { initScanSt with state := ParserState.IN_BLOCK } ("SELECT 1;".data) =
        Except.ok st2 ∧
      st2.statements = ({ initScanSt with state := ParserState.IN_BLOCK } : ScanSt).statements ∧
      st2.state = ParserState.IN_BLOCK :=
  claim_C2.1 env0 { initScanSt with state := ParserState.IN_BLOCK } ("SELECT 1;".data)
    rfl (by decide)

/-- C7, counterexample: re-parsing the extracted Up section does not preserve
the transaction flag, because NO TRANSACTION is read from the raw file before
extraction and the extracted section no longer begins with it. -/
theorem claim_C7_cex :
    extractUpSection ("-- +goose NO TRANSACTION\n-- +goose Up\nSELECT 1;".data)
        UP_COMMENT DOWN_COMMENT = Except.ok ("SELECT 1;".data) ∧
    parseSqlStatements env0 ("-- +goose NO TRANSACTION\n-- +goose Up\nSELECT 1;".data)
        ("up".data) = Except.ok ⟨["SELECT 1;".data], false⟩ ∧
    parseSqlStatements env0 ("SELECT 1;".data) ("up".data) =
      Except.ok ⟨["SELECT 1;".data], true⟩ := by
  refine ⟨by decide, by decide, by decide⟩

/-- C7 (amended): for a valid migration file x routed through extraction
(it has an Up marker), whose extracted Up section sec contains no line
matching the Up/Down marker pattern, and which agrees with sec on the
NO TRANSACTION first-line check, parsing the extracted section equals
parsing the whole file in the up direction. -/
theorem claim_C7 :
    ∀ (env : List Char → Option (List Char)) (x sec : List Char),
      hasMarker ("up".data) x = true →
      extractUpSection x UP_COMMENT DOWN_COMMENT = Except.ok sec →
      hasMarker ("up".data) sec = false →
      hasMarker ("down".data) sec = false →
      startsWithNoTxDirective x = startsWithNoTxDirective sec →
      parseSqlStatements env sec ("up".data) = parseSqlStatements env x ("up".data) := by
  intro env x sec hm hex h1 h2 htx
  unfold parseSqlStatements sectionOf
  rw [hm, h1, h2, htx]
  simp [hex]

/-- C7 witness. -/
theorem claim_C7_witness :
    parseSqlStatements env0 ("SELECT 1;".data) ("up".data) =
      parseSqlStatements env0 ("-- +goose Up\nSELECT 1;".data) ("up".data) :=
  claim_C7 env0 ("-- +goose Up\nSELECT 1;".data) ("SELECT 1;".data)
    (by decide) (by decide) (by decide) (by decide) (by decide)
